import Mathlib

/-! DGDA site script (`static/script.js`)

A shallow embedding of the three behaviours of the page script:

* the gallery lightbox (`openLightbox`, `closeLightbox`, `prevImage`,
  `nextImage`, `updateLightboxImage` and the gallery click handler);
* `populateUpcomingEvents`, which renders the event list and, at its end,
  attaches the submit listener of the registration form;
* the submit listener itself (the registration form validator).

JavaScript strings are `String`s, numbers that hold indices and time values
are `Int`s, a time value of `NaN` (Invalid Date) is `none`.
-/

namespace DGDA

/-! ## String primitives -/

/-- The code points of ECMAScript `WhiteSpace` and `LineTerminator`: the set
that `String.prototype.trim` strips and that `\s` matches in a regular
expression. -/
def isWhiteSpace (c : Char) : Bool :=
  c.toNat == 0x09 || c.toNat == 0x0A || c.toNat == 0x0B || c.toNat == 0x0C ||
  c.toNat == 0x0D || c.toNat == 0x20 || c.toNat == 0xA0 || c.toNat == 0x1680 ||
  (0x2000 ≤ c.toNat && c.toNat ≤ 0x200A) || c.toNat == 0x2028 ||
  c.toNat == 0x2029 || c.toNat == 0x202F || c.toNat == 0x205F ||
  c.toNat == 0x3000 || c.toNat == 0xFEFF

/-- The method `String.prototype.trim`: white space is removed from both ends. -/
def trim (s : String) : String :=
  String.mk ((s.data.dropWhile isWhiteSpace).reverse.dropWhile isWhiteSpace).reverse

/-! ## Regular expressions

The script has one regular expression literal, built from character classes,
concatenation and `+`, anchored at both ends.  Matching is by Brzozowski
derivatives. -/

/-- Regular expressions over characters, with character classes given by a
Boolean test. -/
inductive Regex where
  | never : Regex
  | empty : Regex
  | cls (p : Char → Bool) : Regex
  | alt (r s : Regex) : Regex
  | seq (r s : Regex) : Regex
  | star (r : Regex) : Regex

namespace Regex

/-- The quantifier `+`: one or more repetitions. -/
def plus (r : Regex) : Regex := seq r (star r)

/-- A literal character. -/
def lit (c : Char) : Regex := cls (fun x => x == c)

/-- Whether the expression matches the empty string. -/
def nullable : Regex → Bool
  | never => false
  | empty => true
  | cls _ => false
  | alt r s => nullable r || nullable s
  | seq r s => nullable r && nullable s
  | star _ => true

/-- The derivative of an expression by one character. -/
def deriv : Regex → Char → Regex
  | never, _ => never
  | empty, _ => never
  | cls p, c => if p c then empty else never
  | alt r s, c => alt (deriv r c) (deriv s c)
  | seq r s, c =>
    if nullable r then alt (seq (deriv r c) s) (deriv s c) else seq (deriv r c) s
  | star r, c => seq (deriv r c) (star r)

/-- Whether the whole character sequence matches the expression. -/
def fullMatch : Regex → List Char → Bool
  | r, [] => nullable r
  | r, c :: cs => fullMatch (deriv r c) cs

/-- The method `RegExp.prototype.test` for a pattern anchored with `^` and `$`
(no flags): the whole string has to match. -/
def test (r : Regex) (s : String) : Bool := fullMatch r s.data

/-- The strings an expression denotes. -/
inductive Matches : Regex → List Char → Prop
  | empty : Matches Regex.empty []
  | cls (p : Char → Bool) (c : Char) : p c = true → Matches (Regex.cls p) [c]
  | altLeft (r s : Regex) (u : List Char) : Matches r u → Matches (Regex.alt r s) u
  | altRight (r s : Regex) (u : List Char) : Matches s u → Matches (Regex.alt r s) u
  | seq (r s : Regex) (u v : List Char) :
      Matches r u → Matches s v → Matches (Regex.seq r s) (u ++ v)
  | starNil (r : Regex) : Matches (Regex.star r) []
  | starCons (r : Regex) (u v : List Char) :
      Matches r u → Matches (Regex.star r) v → Matches (Regex.star r) (u ++ v)

end Regex

/-- The class `[^\s@]`: any character that is neither white space nor `@`. -/
def notSpaceNorAt (c : Char) : Bool := !(isWhiteSpace c) && !(c == '@')

/-- The literal `/^[^\s@]+@[^\s@]+\.[^\s@]+$/` of the submit listener. -/
def emailPattern : Regex :=
  Regex.seq (Regex.plus (Regex.cls notSpaceNorAt))
    (Regex.seq (Regex.lit '@')
      (Regex.seq (Regex.plus (Regex.cls notSpaceNorAt))
        (Regex.seq (Regex.lit '.') (Regex.plus (Regex.cls notSpaceNorAt)))))

/-- The shape of an accepted email address in the words of the specification:
no white space anywhere, exactly one `@`, a non-empty local part before it,
and after it a part that contains a `.` with at least one character before
and at least one character after it. -/
def SpecEmailShape (e : List Char) : Prop :=
  (∀ c ∈ e, isWhiteSpace c = false) ∧ e.count '@' = 1 ∧
  ∃ loc dom : List Char, e = loc ++ '@' :: dom ∧ loc ≠ [] ∧
    ∃ pre post : List Char, dom = pre ++ '.' :: post ∧ pre ≠ [] ∧ post ≠ []

/-! ## The registration form and its submit listener -/

/-- An element of the page as far as the script touches it: its class list,
`style.display` and `textContent`. -/
structure Element where
  classList : List String
  display : String
  textContent : String
deriving DecidableEq

/-- A text control: its current value and the default value of the markup. -/
structure TextInput where
  value : String
  defaultValue : String
deriving DecidableEq

/-- A checkbox: its current state and the default state of the markup. -/
structure Checkbox where
  checked : Bool
  defaultChecked : Bool
deriving DecidableEq

/-- The controls of `#registration-form`. -/
structure RegistrationForm where
  fullName : TextInput
  email : TextInput
  location : TextInput
  terms : Checkbox
deriving DecidableEq

/-- The method `HTMLFormElement.reset`: every control returns to its default. -/
def RegistrationForm.reset (f : RegistrationForm) : RegistrationForm :=
  { fullName := { f.fullName with value := f.fullName.defaultValue }
    email := { f.email with value := f.email.defaultValue }
    location := { f.location with value := f.location.defaultValue }
    terms := { f.terms with checked := f.terms.defaultChecked } }

/-- The part of the document the submit listener reads and writes: the form
and the elements with ids `fullName-error`, `email-error`, `location-error`,
`terms-error` and `form-message`.  The markup is not part of the script; the
class list of each element is a parameter of the model. -/
structure FormDom where
  form : RegistrationForm
  fullNameError : Element
  emailError : Element
  locationError : Element
  termsError : Element
  formMessage : Element
deriving DecidableEq

/-- One step of `querySelectorAll('.error-message').forEach(el =>
el.style.display = 'none')`: an element of that class is hidden, any other
element is not selected and stays as it is. -/
def hideIfErrorMessage (el : Element) : Element :=
  if el.classList.contains "error-message" then { el with display := "none" } else el

/-- The reset at the start of the listener (lines 128 and 129): the elements
of class `error-message` are hidden, then `form-message` is hidden. -/
def resetMessages (d : FormDom) : FormDom :=
  let d1 : FormDom :=
    { d with
      fullNameError := hideIfErrorMessage d.fullNameError
      emailError := hideIfErrorMessage d.emailError
      locationError := hideIfErrorMessage d.locationError
      termsError := hideIfErrorMessage d.termsError
      formMessage := hideIfErrorMessage d.formMessage }
  { d1 with formMessage := { d1.formMessage with display := "none" } }

/-- The two assignments that show an error: text, then `display = 'block'`. -/
def showError (el : Element) (msg : String) : Element :=
  { el with textContent := msg, display := "block" }

/-- The state of one run of the listener: the document and `isValid`. -/
structure Run where
  dom : FormDom
  isValid : Bool
deriving DecidableEq

/-- Full name validation (lines 132 to 136). -/
def checkFullName (r : Run) : Run :=
  if trim r.dom.form.fullName.value = "" then
    { dom := { r.dom with
                fullNameError := showError r.dom.fullNameError "Full Name is required." }
      isValid := false }
  else r

/-- Email validation (lines 139 to 148). -/
def checkEmail (r : Run) : Run :=
  if trim r.dom.form.email.value = "" then
    { dom := { r.dom with
                emailError := showError r.dom.emailError "Email Address is required." }
      isValid := false }
  else if !(emailPattern.test r.dom.form.email.value) then
    { dom := { r.dom with
                emailError :=
                  showError r.dom.emailError "Please enter a valid email address." }
      isValid := false }
  else r

/-- Location validation (lines 151 to 155). -/
def checkLocation (r : Run) : Run :=
  if trim r.dom.form.location.value = "" then
    { dom := { r.dom with
                locationError := showError r.dom.locationError "Location is required." }
      isValid := false }
  else r

/-- Terms validation (lines 158 to 162). -/
def checkTerms (r : Run) : Run :=
  if !r.dom.form.terms.checked then
    { dom := { r.dom with
                termsError :=
                  showError r.dom.termsError "You must agree to the terms and conditions." }
      isValid := false }
  else r

/-- The end of the listener (lines 164 to 170): on a valid form the success
text is shown and the form is reset. -/
def finish (r : Run) : FormDom :=
  if r.isValid then
    { r.dom with
      formMessage :=
        { r.dom.formMessage with
          textContent := "Registration successful! We will be in touch shortly."
          display := "block" }
      form := r.dom.form.reset }
  else r.dom

/-- The submit listener of the registration form (lines 117 to 171), after
`event.preventDefault()`. -/
def submitHandler (d : FormDom) : FormDom :=
  finish (checkTerms (checkLocation (checkEmail (checkFullName
    { dom := resetMessages d, isValid := true }))))

/-- Whether the full name passes: not empty after trimming. -/
def fullNameOk (f : RegistrationForm) : Prop := trim f.fullName.value ≠ ""

/-- Whether the email passes: not empty after trimming and of the accepted
pattern. -/
def emailOk (f : RegistrationForm) : Prop :=
  trim f.email.value ≠ "" ∧ emailPattern.test f.email.value = true

/-- Whether the location passes: not empty after trimming. -/
def locationOk (f : RegistrationForm) : Prop := trim f.location.value ≠ ""

/-- Whether the terms pass: the box is checked. -/
def termsOk (f : RegistrationForm) : Prop := f.terms.checked = true

/-- All four fields pass. -/
def formValid (f : RegistrationForm) : Prop :=
  fullNameOk f ∧ emailOk f ∧ locationOk f ∧ termsOk f

/-- The markup precondition of the page description: each of the four error
elements is an `error-message` element, so the reset at the start of the
listener selects it. -/
def ErrorMarkup (d : FormDom) : Prop :=
  d.fullNameError.classList.contains "error-message" = true ∧
  d.emailError.classList.contains "error-message" = true ∧
  d.locationError.classList.contains "error-message" = true ∧
  d.termsError.classList.contains "error-message" = true

/-! ## The gallery lightbox -/

/-- An element matched by `.gallery-item img`, or the target of a click: the
identity of the node, its tag name, and the `src` and `alt` of an image. -/
structure Img where
  node : Nat
  tagName : String
  src : String
  alt : String
deriving DecidableEq

/-- The state the lightbox code owns: `currentIndex`, `lightboxImage.src`,
`lightboxCaption.textContent` and `lightbox.style.display`. -/
structure Lightbox where
  currentIndex : Int
  imageSrc : String
  caption : String
  display : String
deriving DecidableEq

/-- The result of running a handler: the state it leaves and whether it ended
by throwing a `TypeError` (a property read on `undefined`). -/
structure Outcome where
  state : Lightbox
  threw : Bool
deriving DecidableEq

/-- The method `Array.prototype.indexOf`: the first position that holds the
element, `-1` when there is none. -/
def indexOf : List Img → Img → Int
  | [], _ => -1
  | x :: xs, a => if x = a then 0 else if indexOf xs a = -1 then -1 else indexOf xs a + 1

/-- The read `galleryItems[i]`: `none` is `undefined`. -/
def itemAt (items : List Img) (i : Int) : Option Img :=
  if 0 ≤ i then items.get? i.toNat else none

/-- The function `openLightbox` (lines 49 to 53). -/
def openLightbox (image : Img) (s : Lightbox) : Lightbox :=
  { s with imageSrc := image.src, caption := image.alt, display := "flex" }

/-- The function `closeLightbox` (lines 55 to 57). -/
def closeLightbox (s : Lightbox) : Lightbox :=
  { s with display := "none" }

/-- The function `updateLightboxImage` (lines 69 to 73). -/
def updateLightboxImage (items : List Img) (s : Lightbox) : Outcome :=
  match itemAt items s.currentIndex with
  | some img => { state := { s with imageSrc := img.src, caption := img.alt }, threw := false }
  | none => { state := s, threw := true }

/-- The function `prevImage` (lines 59 to 62). -/
def prevImage (items : List Img) (s : Lightbox) : Outcome :=
  updateLightboxImage items
    { s with
      currentIndex :=
        if s.currentIndex > 0 then s.currentIndex - 1 else (items.length : Int) - 1 }

/-- The function `nextImage` (lines 64 to 67). -/
def nextImage (items : List Img) (s : Lightbox) : Outcome :=
  updateLightboxImage items
    { s with
      currentIndex :=
        if s.currentIndex < (items.length : Int) - 1 then s.currentIndex + 1 else 0 }

/-- The click listener of the gallery grid (lines 14 to 22). -/
def galleryClick (items : List Img) (target : Img) (s : Lightbox) : Lightbox :=
  if target.tagName = "IMG" then
    openLightbox target { s with currentIndex := indexOf items target }
  else s

/-- A number of consecutive `nextImage` calls; `threw` records whether any of
them threw. -/
def nextImageTimes (items : List Img) : Nat → Lightbox → Outcome
  | 0, s => { state := s, threw := false }
  | k + 1, s =>
    let o := nextImage items s
    let o2 := nextImageTimes items k o.state
    { state := o2.state, threw := o.threw || o2.threw }

/-! ## The events list -/

/-- An entry of the event table. -/
structure Event where
  date : String
  title : String
  location : String
deriving DecidableEq

/-- The table `upcomingEvents` (lines 77 to 82). -/
def upcomingEvents : List Event :=
  [ { date := "Oct 25, 2025", title := "Beginner Debate Workshop", location := "Lomé Campus" },
    { date := "Nov 10, 2025", title := "DGDA Internal Tournament",
      location := "City Center Auditorium" },
    { date := "Dec 05, 2025", title := "End of Year Showcase",
      location := "National Theatre of Togo" },
    { date := "Jan 15, 2026", title := "New Member Orientation", location := "Lomé Campus" } ]

/-- A child of `#event-list`: the row built from the template with an event
date, title and location, or the row with the text "No upcoming events at
this time.". -/
inductive ListItem where
  | event (date title location : String) : ListItem
  | noEvent : ListItem
deriving DecidableEq

/-- The comparison `new Date(event.date) > now` on time values: `NaN` is not
greater than anything. -/
def laterThan (t : Option Int) (now : Int) : Bool :=
  match t with
  | some x => decide (x > now)
  | none => false

/-- The comparator `new Date(a.date) - new Date(b.date)`: `none` is `NaN`. -/
def compareDates (parse : String → Option Int) (a b : Event) : Option Int :=
  match parse a.date, parse b.date with
  | some x, some y => some (x - y)
  | _, _ => none

/-- How `Array.prototype.sort` reads a comparator result: `NaN` counts as `0`;
the first argument may stay in front when the result is not positive. -/
def notAfter (v : Option Int) : Bool :=
  match v with
  | some x => decide (x ≤ 0)
  | none => true

/-- Insertion of an element in front of a sorted array, behind the elements
the comparator puts strictly before it. -/
def insertSorted (cmp : Event → Event → Option Int) (a : Event) : List Event → List Event
  | [] => [a]
  | b :: l => if notAfter (cmp a b) then a :: b :: l else b :: insertSorted cmp a l

/-- The method `Array.prototype.sort` with a comparator, as a stable insertion
sort.  ECMAScript requires the sort to be stable, and on an array on which
the comparator is a consistent order the stable sorted arrangement is
unique. -/
def arraySort (cmp : Event → Event → Option Int) : List Event → List Event
  | [] => []
  | a :: l => insertSorted cmp a (arraySort cmp l)

/-- Two events are in ascending date order: both dates parse and the first
is not later than the second. -/
def DateAscending (parse : String → Option Int) (a b : Event) : Prop :=
  ∃ x y : Int, parse a.date = some x ∧ parse b.date = some y ∧ x ≤ y

/-- The row the template of `populateUpcomingEvents` builds for an event. -/
def eventRow (e : Event) : ListItem := ListItem.event e.date e.title e.location

/-- The page state `populateUpcomingEvents` works on: the children of
`#event-list` (`none` when the element is absent), the registration form with
its message elements (`none` when `#registration-form` is absent) and the
number of submit listeners attached to the form. -/
structure Page where
  eventList : Option (List ListItem)
  registration : Option FormDom
  submitListeners : Nat
deriving DecidableEq

/-- The method `appendChild` on `#event-list`. -/
def appendItem (p : Page) (item : ListItem) : Page :=
  { p with eventList := p.eventList.map (fun l => l ++ [item]) }

/-- The function `populateUpcomingEvents` (lines 86 to 173).  The date parser
of the browser is the parameter `parse`, the table is `events`, and `now` is
the time value of `new Date()`. -/
def populateUpcomingEvents (parse : String → Option Int) (events : List Event) (now : Int)
    (p : Page) : Page :=
  match p.eventList with
  | none => p
  | some _ =>
    let p1 : Page := { p with eventList := some [] }
    let filteredEvents :=
      arraySort (compareDates parse) (events.filter (fun e => laterThan (parse e.date) now))
    if filteredEvents.length = 0 then
      appendItem p1 ListItem.noEvent
    else
      let p2 := filteredEvents.foldl
        (fun q e => appendItem q (eventRow e)) p1
      match p2.registration with
      | none => p2
      | some _ => { p2 with submitListeners := p2.submitListeners + 1 }

/-- The listeners of one `submit` event run in turn, each on the document the
previous one left. -/
def runListeners : Nat → FormDom → FormDom
  | 0, d => d
  | k + 1, d => runListeners k (submitHandler d)

/-- The dispatch of a `submit` event on the registration form: the page after
the attached listeners have run, and whether the default action (the native
submission) was prevented.  Every listener calls `event.preventDefault()`. -/
def dispatchSubmit (p : Page) : Page × Bool :=
  match p.registration with
  | none => (p, false)
  | some d =>
    ({ p with registration := some (runListeners p.submitListeners d) },
      decide (0 < p.submitListeners))

/-! ### A model of the date parser

`new Date(string)` on a string that is not in the ISO format is left to the
implementation by ECMAScript; browsers read the format of the event table,
`Mon D, YYYY`, as midnight of that calendar day.  The model below covers this
format only and is used for concrete instances; the general theorems take the
parser as a parameter. -/

/-- The month number of an English three-letter month name. -/
def monthNumber (m : List Char) : Option Int :=
  if m = ['J', 'a', 'n'] then some 1
  else if m = ['F', 'e', 'b'] then some 2
  else if m = ['M', 'a', 'r'] then some 3
  else if m = ['A', 'p', 'r'] then some 4
  else if m = ['M', 'a', 'y'] then some 5
  else if m = ['J', 'u', 'n'] then some 6
  else if m = ['J', 'u', 'l'] then some 7
  else if m = ['A', 'u', 'g'] then some 8
  else if m = ['S', 'e', 'p'] then some 9
  else if m = ['O', 'c', 't'] then some 10
  else if m = ['N', 'o', 'v'] then some 11
  else if m = ['D', 'e', 'c'] then some 12
  else none

/-- The value of a run of decimal digits. -/
def digitsValue : List Char → Option Int
  | [] => none
  | cs => if cs.all Char.isDigit then
      some (cs.foldl (fun acc c => acc * 10 + ((c.toNat : Int) - 48)) 0) else none

/-- The number of days from 1 January 1970 to a day of the proleptic Gregorian
calendar. -/
def daysFromCivil (y m d : Int) : Int :=
  let y1 := if m ≤ 2 then y - 1 else y
  let era := y1 / 400
  let yoe := y1 - era * 400
  let mp := if m > 2 then m - 3 else m + 9
  let doy := (153 * mp + 2) / 5 + d - 1
  let doe := yoe * 365 + yoe / 4 - yoe / 100 + doy
  era * 146097 + doe - 719468

/-- The time value, in milliseconds, of midnight of a calendar day. -/
def msOfDate (y m d : Int) : Int := daysFromCivil y m d * 86400000

/-- The time value of `new Date(s)` for `s` of the form `Mon D, YYYY` or
`Mon DD, YYYY`; `none` otherwise. -/
def parseDate (s : String) : Option Int :=
  let go (mon day year : List Char) : Option Int :=
    match monthNumber mon, digitsValue day, digitsValue year with
    | some m, some d, some y => if 1 ≤ d ∧ d ≤ 31 then some (msOfDate y m d) else none
    | _, _, _ => none
  match s.data with
  | [m1, m2, m3, ' ', d1, d2, ',', ' ', y1, y2, y3, y4] =>
    go [m1, m2, m3] [d1, d2] [y1, y2, y3, y4]
  | [m1, m2, m3, ' ', d1, ',', ' ', y1, y2, y3, y4] =>
    go [m1, m2, m3] [d1] [y1, y2, y3, y4]
  | _ => none

/-! ## Sample pages -/

/-- A gallery of three images. -/
def sampleGallery : List Img :=
  [ { node := 1, tagName := "IMG", src := "img/debate1.jpg", alt := "Debate round" },
    { node := 2, tagName := "IMG", src := "img/debate2.jpg", alt := "Workshop" },
    { node := 3, tagName := "IMG", src := "img/debate3.jpg", alt := "Award ceremony" } ]

/-- An image inside the gallery grid that `.gallery-item img` does not match. -/
def sampleStray : Img :=
  { node := 9, tagName := "IMG", src := "img/logo.png", alt := "Logo" }

/-- The lightbox before any interaction. -/
def sampleLightbox : Lightbox :=
  { currentIndex := 0, imageSrc := "", caption := "", display := "none" }

/-- The lightbox open on the last image of the sample gallery. -/
def sampleLightboxLast : Lightbox :=
  { currentIndex := 2, imageSrc := "img/debate3.jpg", caption := "Award ceremony",
    display := "flex" }

/-- An error element of the markup: class `error-message`, nothing shown. -/
def sampleErrorElement : Element :=
  { classList := ["error-message"], display := "", textContent := "" }

/-- A registration form filled in with valid values, its message elements
untouched. -/
def sampleFormDom : FormDom :=
  { form :=
      { fullName := { value := "Ama Mensah", defaultValue := "" }
        email := { value := "ama@example.com", defaultValue := "" }
        location := { value := "Accra", defaultValue := "" }
        terms := { checked := true, defaultChecked := false } }
    fullNameError := sampleErrorElement
    emailError := sampleErrorElement
    locationError := sampleErrorElement
    termsError := sampleErrorElement
    formMessage := { classList := ["form-message"], display := "", textContent := "" } }

/-- The same form with nothing entered and every error left visible by an
earlier attempt. -/
def sampleBlankDom : FormDom :=
  { form :=
      { fullName := { value := "", defaultValue := "" }
        email := { value := "", defaultValue := "" }
        location := { value := "", defaultValue := "" }
        terms := { checked := false, defaultChecked := false } }
    fullNameError := { sampleErrorElement with display := "block" }
    emailError := { sampleErrorElement with display := "block" }
    locationError := { sampleErrorElement with display := "block" }
    termsError := { sampleErrorElement with display := "block" }
    formMessage := { classList := ["form-message"], display := "block", textContent := "" } }

/-- The valid form with the email replaced by `foo@bar`. -/
def sampleFooDom : FormDom :=
  { sampleFormDom with
    form := { sampleFormDom.form with email := { value := "foo@bar", defaultValue := "" } } }

/-- A page with an empty `#event-list`, the valid registration form and no
submit listener yet. -/
def samplePage : Page :=
  { eventList := some [], registration := some sampleFormDom, submitListeners := 0 }

/-! ## Regular expression matching is sound and complete -/

theorem Regex.matches_nil_of_nullable (r : Regex) (h : r.nullable = true) :
    Regex.Matches r [] := by
  induction r with
  | never => simp [Regex.nullable] at h
  | empty => exact Regex.Matches.empty
  | cls p => simp [Regex.nullable] at h
  | alt r s ihr ihs =>
    simp only [Regex.nullable, Bool.or_eq_true] at h
    rcases h with h | h
    · exact Regex.Matches.altLeft _ _ _ (ihr h)
    · exact Regex.Matches.altRight _ _ _ (ihs h)
  | seq r s ihr ihs =>
    simp only [Regex.nullable, Bool.and_eq_true] at h
    exact Regex.Matches.seq r s [] [] (ihr h.1) (ihs h.2)
  | star r _ => exact Regex.Matches.starNil r

theorem Regex.nullable_of_matches_nil (r : Regex) (w : List Char)
    (h : Regex.Matches r w) (hw : w = []) : r.nullable = true := by
  induction h with
  | empty => rfl
  | cls p c _ => simp at hw
  | altLeft r s u _ ih => simp [Regex.nullable, ih hw]
  | altRight r s u _ ih => simp [Regex.nullable, ih hw]
  | seq r s u v _ _ ihr ihs =>
    have huv := List.append_eq_nil.mp hw
    simp [Regex.nullable, ihr huv.1, ihs huv.2]
  | starNil r => rfl
  | starCons r u v _ _ _ _ => rfl

theorem Regex.matches_cons_of_deriv (r : Regex) (c : Char) (w : List Char)
    (h : Regex.Matches (r.deriv c) w) : Regex.Matches r (c :: w) := by
  induction r generalizing w with
  | never => cases h
  | empty => cases h
  | cls p =>
    by_cases hp : p c = true
    · simp only [Regex.deriv, hp, if_true] at h
      cases h
      exact Regex.Matches.cls p c hp
    · simp only [Regex.deriv, hp] at h
      cases h
  | alt r s ihr ihs =>
    simp only [Regex.deriv] at h
    cases h with
    | altLeft _ _ _ h1 => exact Regex.Matches.altLeft _ _ _ (ihr w h1)
    | altRight _ _ _ h1 => exact Regex.Matches.altRight _ _ _ (ihs w h1)
  | seq r s ihr ihs =>
    by_cases hn : r.nullable = true
    · simp only [Regex.deriv, hn, if_true] at h
      cases h with
      | altLeft _ _ _ h1 =>
        cases h1 with
        | seq _ _ u v hu hv => exact Regex.Matches.seq r s (c :: u) v (ihr u hu) hv
      | altRight _ _ _ h1 =>
        exact Regex.Matches.seq r s [] (c :: w) (Regex.matches_nil_of_nullable r hn) (ihs w h1)
    · simp only [Regex.deriv, hn] at h
      cases h with
      | seq _ _ u v hu hv => exact Regex.Matches.seq r s (c :: u) v (ihr u hu) hv
  | star r ihr =>
    simp only [Regex.deriv] at h
    cases h with
    | seq _ _ u v hu hv => exact Regex.Matches.starCons r (c :: u) v (ihr u hu) hv

theorem Regex.deriv_of_matches_cons (r : Regex) (c : Char) (w t : List Char)
    (h : Regex.Matches r w) (hw : w = c :: t) : Regex.Matches (r.deriv c) t := by
  induction h generalizing t with
  | empty => simp at hw
  | cls p x hp =>
    simp only [List.cons.injEq] at hw
    obtain ⟨rfl, rfl⟩ := hw
    simp only [Regex.deriv, hp, if_true]
    exact Regex.Matches.empty
  | altLeft r s u _ ih => exact Regex.Matches.altLeft _ _ _ (ih t hw)
  | altRight r s u _ ih => exact Regex.Matches.altRight _ _ _ (ih t hw)
  | seq r s u v hu hv ihr ihs =>
    cases u with
    | nil =>
      have hn : r.nullable = true := Regex.nullable_of_matches_nil r [] hu rfl
      simp only [Regex.deriv, hn, if_true]
      exact Regex.Matches.altRight _ _ _ (ihs t (by simpa using hw))
    | cons x u1 =>
      simp only [List.cons_append, List.cons.injEq] at hw
      obtain ⟨rfl, rfl⟩ := hw
      have h1 : Regex.Matches (Regex.seq (r.deriv x) s) (u1 ++ v) :=
        Regex.Matches.seq _ _ u1 v (ihr u1 rfl) hv
      by_cases hn : r.nullable = true
      · simp only [Regex.deriv, hn, if_true]
        exact Regex.Matches.altLeft _ _ _ h1
      · simp only [Regex.deriv, hn]
        exact h1
  | starNil r => simp at hw
  | starCons r u v hu hv ihr ihs =>
    cases u with
    | nil => exact ihs t (by simpa using hw)
    | cons x u1 =>
      simp only [List.cons_append, List.cons.injEq] at hw
      obtain ⟨rfl, rfl⟩ := hw
      simp only [Regex.deriv]
      exact Regex.Matches.seq _ _ u1 v (ihr u1 rfl) hv

theorem Regex.fullMatch_iff (r : Regex) (w : List Char) :
    r.fullMatch w = true ↔ Regex.Matches r w := by
  induction w generalizing r with
  | nil =>
    exact ⟨Regex.matches_nil_of_nullable r, fun h => Regex.nullable_of_matches_nil r [] h rfl⟩
  | cons c w ih =>
    simp only [Regex.fullMatch]
    rw [ih]
    exact ⟨Regex.matches_cons_of_deriv r c w,
      fun h => Regex.deriv_of_matches_cons r c (c :: w) w h rfl⟩

theorem Regex.matches_seq_iff (r s : Regex) (w : List Char) :
    Regex.Matches (Regex.seq r s) w ↔
      ∃ u v, w = u ++ v ∧ Regex.Matches r u ∧ Regex.Matches s v := by
  constructor
  · intro h
    cases h with
    | seq _ _ u v hu hv => exact ⟨u, v, rfl, hu, hv⟩
  · rintro ⟨u, v, rfl, hu, hv⟩
    exact Regex.Matches.seq r s u v hu hv

theorem Regex.matches_cls_iff (p : Char → Bool) (w : List Char) :
    Regex.Matches (Regex.cls p) w ↔ ∃ c, w = [c] ∧ p c = true := by
  constructor
  · intro h
    cases h with
    | cls _ c hp => exact ⟨c, rfl, hp⟩
  · rintro ⟨c, rfl, hp⟩
    exact Regex.Matches.cls p c hp

theorem Regex.matches_lit_iff (c : Char) (w : List Char) :
    Regex.Matches (Regex.lit c) w ↔ w = [c] := by
  unfold Regex.lit
  rw [Regex.matches_cls_iff]
  constructor
  · rintro ⟨x, rfl, hx⟩
    simp only [beq_iff_eq] at hx
    rw [hx]
  · rintro rfl
    exact ⟨c, rfl, by simp⟩

theorem Regex.all_of_matches_star_cls (p : Char → Bool) (r : Regex) (w : List Char)
    (h : Regex.Matches r w) (hr : r = Regex.star (Regex.cls p)) :
    ∀ c ∈ w, p c = true := by
  induction h with
  | empty => cases hr
  | cls q c _ => cases hr
  | altLeft r s u _ _ => cases hr
  | altRight r s u _ _ => cases hr
  | seq r s u v _ _ _ _ => cases hr
  | starNil r => simp
  | starCons r u v hu _ _ ihv =>
    cases hr
    intro c hc
    rcases List.mem_append.mp hc with hc | hc
    · obtain ⟨x, rfl, hx⟩ := (Regex.matches_cls_iff p u).mp hu
      simp only [List.mem_singleton] at hc
      rw [hc]; exact hx
    · exact ihv rfl c hc

theorem Regex.matches_star_cls_iff (p : Char → Bool) (w : List Char) :
    Regex.Matches (Regex.star (Regex.cls p)) w ↔ ∀ c ∈ w, p c = true := by
  constructor
  · intro h
    exact Regex.all_of_matches_star_cls p _ w h rfl
  · intro h
    induction w with
    | nil => exact Regex.Matches.starNil _
    | cons c w ih =>
      exact Regex.Matches.starCons _ [c] w
        (Regex.Matches.cls p c (h c (List.mem_cons_self c w)))
        (ih (fun x hx => h x (List.mem_cons_of_mem c hx)))

theorem Regex.matches_plus_cls_iff (p : Char → Bool) (w : List Char) :
    Regex.Matches (Regex.plus (Regex.cls p)) w ↔ w ≠ [] ∧ ∀ c ∈ w, p c = true := by
  unfold Regex.plus
  rw [Regex.matches_seq_iff]
  constructor
  · rintro ⟨u, v, rfl, hu, hv⟩
    obtain ⟨x, rfl, hx⟩ := (Regex.matches_cls_iff p u).mp hu
    refine ⟨by simp, ?_⟩
    intro c hc
    rcases List.mem_append.mp hc with hc | hc
    · simp only [List.mem_singleton] at hc
      rw [hc]; exact hx
    · exact (Regex.matches_star_cls_iff p v).mp hv c hc
  · rintro ⟨hne, hall⟩
    cases w with
    | nil => exact absurd rfl hne
    | cons c w =>
      exact ⟨[c], w, rfl, Regex.Matches.cls p c (hall c (List.mem_cons_self c w)),
        (Regex.matches_star_cls_iff p w).mpr (fun x hx => hall x (List.mem_cons_of_mem c hx))⟩

/-! ## The email pattern -/

theorem matches_emailPattern_iff (w : List Char) :
    Regex.Matches emailPattern w ↔
      ∃ a b d : List Char, w = a ++ '@' :: (b ++ '.' :: d) ∧ a ≠ [] ∧ b ≠ [] ∧ d ≠ [] ∧
        (∀ c ∈ a, notSpaceNorAt c = true) ∧ (∀ c ∈ b, notSpaceNorAt c = true) ∧
        (∀ c ∈ d, notSpaceNorAt c = true) := by
  unfold emailPattern
  constructor
  · intro h
    obtain ⟨a, w1, rfl, ha, h1⟩ := (Regex.matches_seq_iff _ _ _).mp h
    obtain ⟨x, w2, rfl, hx, h2⟩ := (Regex.matches_seq_iff _ _ _).mp h1
    obtain ⟨b, w3, rfl, hb, h3⟩ := (Regex.matches_seq_iff _ _ _).mp h2
    obtain ⟨y, d, rfl, hy, hd⟩ := (Regex.matches_seq_iff _ _ _).mp h3
    rw [Regex.matches_lit_iff] at hx hy
    subst hx hy
    rw [Regex.matches_plus_cls_iff] at ha hb hd
    exact ⟨a, b, d, by simp, ha.1, hb.1, hd.1, ha.2, hb.2, hd.2⟩
  · rintro ⟨a, b, d, rfl, ha, hb, hd, hap, hbp, hdp⟩
    refine (Regex.matches_seq_iff _ _ _).mpr
      ⟨a, '@' :: (b ++ '.' :: d), rfl, (Regex.matches_plus_cls_iff _ _).mpr ⟨ha, hap⟩, ?_⟩
    refine (Regex.matches_seq_iff _ _ _).mpr
      ⟨['@'], b ++ '.' :: d, rfl, (Regex.matches_lit_iff _ _).mpr rfl, ?_⟩
    refine (Regex.matches_seq_iff _ _ _).mpr
      ⟨b, '.' :: d, rfl, (Regex.matches_plus_cls_iff _ _).mpr ⟨hb, hbp⟩, ?_⟩
    exact (Regex.matches_seq_iff _ _ _).mpr
      ⟨['.'], d, rfl, (Regex.matches_lit_iff _ _).mpr rfl,
        (Regex.matches_plus_cls_iff _ _).mpr ⟨hd, hdp⟩⟩

theorem notSpaceNorAt_iff (c : Char) :
    notSpaceNorAt c = true ↔ isWhiteSpace c = false ∧ c ≠ '@' := by
  simp [notSpaceNorAt]

theorem emailPattern_fullMatch_iff (w : List Char) :
    emailPattern.fullMatch w = true ↔ SpecEmailShape w := by
  rw [Regex.fullMatch_iff, matches_emailPattern_iff]
  constructor
  · rintro ⟨a, b, d, rfl, ha, hb, hd, hap, hbp, hdp⟩
    have hat : ∀ l : List Char, (∀ c ∈ l, notSpaceNorAt c = true) → l.count '@' = 0 := by
      intro l hl
      rw [List.count_eq_zero]
      intro hmem
      exact ((notSpaceNorAt_iff _).mp (hl _ hmem)).2 rfl
    refine ⟨?_, ?_, a, b ++ '.' :: d, rfl, ha, b, d, rfl, hb, hd⟩
    · intro c hc
      simp only [List.mem_append, List.mem_cons] at hc
      rcases hc with hc | rfl | hc | rfl | hc
      · exact ((notSpaceNorAt_iff _).mp (hap c hc)).1
      · decide
      · exact ((notSpaceNorAt_iff _).mp (hbp c hc)).1
      · decide
      · exact ((notSpaceNorAt_iff _).mp (hdp c hc)).1
    · have h1 : ('.' == '@') = false := by decide
      simp [List.count_append, List.count_cons, hat a hap, hat b hbp, hat d hdp, h1]
  · rintro ⟨hws, hcount, loc, dom, rfl, hloc, pre, post, rfl, hpre, hpost⟩
    have h1 : ('.' == '@') = false := by decide
    simp only [List.count_append, List.count_cons, beq_self_eq_true, if_true, h1] at hcount
    have hl : loc.count '@' = 0 := by omega
    have hp : pre.count '@' = 0 := by omega
    have hq : post.count '@' = 0 := by simp at hcount; omega
    rw [List.count_eq_zero] at hl hp hq
    refine ⟨loc, pre, post, rfl, hloc, hpre, hpost, ?_, ?_, ?_⟩
    · intro c hc
      exact (notSpaceNorAt_iff c).mpr ⟨hws c (by simp [hc]), fun h => hl (h ▸ hc)⟩
    · intro c hc
      exact (notSpaceNorAt_iff c).mpr ⟨hws c (by simp [hc]), fun h => hp (h ▸ hc)⟩
    · intro c hc
      exact (notSpaceNorAt_iff c).mpr ⟨hws c (by simp [hc]), fun h => hq (h ▸ hc)⟩

/-! ## The submit listener -/

theorem hideIfErrorMessage_of_class (el : Element)
    (h : el.classList.contains "error-message" = true) :
    hideIfErrorMessage el = { el with display := "none" } := by
  unfold hideIfErrorMessage
  rw [if_pos h]

/-- Claim C1.  After one run of the submit listener, from any prior state of
the message elements, the success message is shown (`display` is `block`)
exactly when all four fields pass, and it is hidden (`display` is `none`)
exactly when some field fails; when all pass it carries the success text and
every control is back at its default; when some field fails the form is
exactly as it was entered. -/
theorem submitHandler_success_iff_valid (d : FormDom) :
    ((submitHandler d).formMessage.display = "block" ↔ formValid d.form) ∧
    ((submitHandler d).formMessage.display = "none" ↔ ¬ formValid d.form) ∧
    (formValid d.form →
      (submitHandler d).formMessage.textContent =
          "Registration successful! We will be in touch shortly." ∧
        (submitHandler d).form.fullName.value = d.form.fullName.defaultValue ∧
        (submitHandler d).form.email.value = d.form.email.defaultValue ∧
        (submitHandler d).form.location.value = d.form.location.defaultValue ∧
        (submitHandler d).form.terms.checked = d.form.terms.defaultChecked) ∧
    (¬ formValid d.form → (submitHandler d).form = d.form) := by
  have hne : ("none" : String) ≠ "block" := by decide
  by_cases h1 : trim d.form.fullName.value = "" <;>
  by_cases h2 : trim d.form.email.value = "" <;>
  by_cases h3 : emailPattern.test d.form.email.value = true <;>
  by_cases h4 : trim d.form.location.value = "" <;>
  by_cases h5 : d.form.terms.checked = true <;>
  simp [submitHandler, finish, checkTerms, checkLocation, checkEmail, checkFullName,
    resetMessages, showError, formValid, fullNameOk, emailOk, locationOk, termsOk,
    RegistrationForm.reset, h1, h2, h3, h4, h5]

/-- Claim C2.  On a page whose four error elements are `error-message`
elements, after one run of the submit listener, from any prior state of those
elements, each error element is shown (`display` is `block`) exactly when its
own field fails and hidden (`display` is `none`) exactly when its field
passes, whatever the other fields do, and a shown one carries the text of its
field.  With the three text fields empty and the box unchecked all four are
shown and the success message is hidden. -/
theorem submitHandler_errors_per_field (d : FormDom) (hm : ErrorMarkup d) :
    (((submitHandler d).fullNameError.display = "block" ↔ ¬ fullNameOk d.form) ∧
      ((submitHandler d).fullNameError.display = "none" ↔ fullNameOk d.form) ∧
      (¬ fullNameOk d.form →
        (submitHandler d).fullNameError.textContent = "Full Name is required.")) ∧
    (((submitHandler d).emailError.display = "block" ↔ ¬ emailOk d.form) ∧
      ((submitHandler d).emailError.display = "none" ↔ emailOk d.form) ∧
      (trim d.form.email.value = "" →
        (submitHandler d).emailError.textContent = "Email Address is required.") ∧
      (trim d.form.email.value ≠ "" → emailPattern.test d.form.email.value = false →
        (submitHandler d).emailError.textContent = "Please enter a valid email address.")) ∧
    (((submitHandler d).locationError.display = "block" ↔ ¬ locationOk d.form) ∧
      ((submitHandler d).locationError.display = "none" ↔ locationOk d.form) ∧
      (¬ locationOk d.form →
        (submitHandler d).locationError.textContent = "Location is required.")) ∧
    (((submitHandler d).termsError.display = "block" ↔ ¬ termsOk d.form) ∧
      ((submitHandler d).termsError.display = "none" ↔ termsOk d.form) ∧
      (¬ termsOk d.form →
        (submitHandler d).termsError.textContent =
          "You must agree to the terms and conditions.")) ∧
    (d.form.fullName.value = "" → d.form.email.value = "" → d.form.location.value = "" →
      d.form.terms.checked = false →
        (submitHandler d).fullNameError.display = "block" ∧
        (submitHandler d).emailError.display = "block" ∧
        (submitHandler d).locationError.display = "block" ∧
        (submitHandler d).termsError.display = "block" ∧
        (submitHandler d).formMessage.display = "none") := by
  have m1 := hideIfErrorMessage_of_class _ hm.1
  have m2 := hideIfErrorMessage_of_class _ hm.2.1
  have m3 := hideIfErrorMessage_of_class _ hm.2.2.1
  have m4 := hideIfErrorMessage_of_class _ hm.2.2.2
  have hne : ("none" : String) ≠ "block" := by decide
  have hempty : trim "" = "" := by decide
  refine ⟨?_, ?_, ?_, ?_, ?_⟩
  · by_cases h1 : trim d.form.fullName.value = "" <;>
    by_cases h2 : trim d.form.email.value = "" <;>
    by_cases h3 : emailPattern.test d.form.email.value = true <;>
    by_cases h4 : trim d.form.location.value = "" <;>
    by_cases h5 : d.form.terms.checked = true <;>
    simp [submitHandler, finish, checkTerms, checkLocation, checkEmail, checkFullName,
      resetMessages, showError, fullNameOk, h1, h2, h3, h4, h5, m1]
  · by_cases h1 : trim d.form.fullName.value = "" <;>
    by_cases h2 : trim d.form.email.value = "" <;>
    by_cases h3 : emailPattern.test d.form.email.value = true <;>
    by_cases h4 : trim d.form.location.value = "" <;>
    by_cases h5 : d.form.terms.checked = true <;>
    simp [submitHandler, finish, checkTerms, checkLocation, checkEmail, checkFullName,
      resetMessages, showError, emailOk, h1, h2, h3, h4, h5, m2]
  · by_cases h1 : trim d.form.fullName.value = "" <;>
    by_cases h2 : trim d.form.email.value = "" <;>
    by_cases h3 : emailPattern.test d.form.email.value = true <;>
    by_cases h4 : trim d.form.location.value = "" <;>
    by_cases h5 : d.form.terms.checked = true <;>
    simp [submitHandler, finish, checkTerms, checkLocation, checkEmail, checkFullName,
      resetMessages, showError, locationOk, h1, h2, h3, h4, h5, m3]
  · by_cases h1 : trim d.form.fullName.value = "" <;>
    by_cases h2 : trim d.form.email.value = "" <;>
    by_cases h3 : emailPattern.test d.form.email.value = true <;>
    by_cases h4 : trim d.form.location.value = "" <;>
    by_cases h5 : d.form.terms.checked = true <;>
    simp [submitHandler, finish, checkTerms, checkLocation, checkEmail, checkFullName,
      resetMessages, showError, termsOk, h1, h2, h3, h4, h5, m4]
  · intro e1 e2 e3 e4
    simp [submitHandler, finish, checkTerms, checkLocation, checkEmail, checkFullName,
      resetMessages, showError, e1, e2, e3, e4, hempty]

/-- Claim C4.  The email check of the submit listener, on a page whose four
error elements are `error-message` elements: an email that is empty after
trimming shows the error with the text "Email Address is required.",
whatever the pattern says; otherwise an email that does not match the
pattern shows the error with the text "Please enter a valid email address.";
otherwise the check changes nothing and the email error stays hidden.  The
pattern accepts exactly the strings without white space, with exactly one
`@`, a non-empty part before it and, after it, a `.` with at least one
character on each side.  With email `foo@bar` and the other fields valid the
email error is the only one shown and the success message is hidden. -/
theorem submitHandler_email_check (d : FormDom) (hm : ErrorMarkup d) :
    (trim d.form.email.value = "" →
      (submitHandler d).emailError.display = "block" ∧
      (submitHandler d).emailError.textContent = "Email Address is required.") ∧
    (trim d.form.email.value ≠ "" → emailPattern.test d.form.email.value = false →
      (submitHandler d).emailError.display = "block" ∧
      (submitHandler d).emailError.textContent = "Please enter a valid email address.") ∧
    (trim d.form.email.value ≠ "" → emailPattern.test d.form.email.value = true →
      (submitHandler d).emailError.display = "none" ∧
      ∀ r : Run, r.dom.form.email = d.form.email → checkEmail r = r) ∧
    (emailPattern.test d.form.email.value = true ↔ SpecEmailShape d.form.email.value.data) ∧
    (d.form.email.value = "foo@bar" → fullNameOk d.form → locationOk d.form →
      termsOk d.form →
        (submitHandler d).emailError.display = "block" ∧
        (submitHandler d).emailError.textContent = "Please enter a valid email address." ∧
        (submitHandler d).fullNameError.display = "none" ∧
        (submitHandler d).locationError.display = "none" ∧
        (submitHandler d).termsError.display = "none" ∧
        (submitHandler d).formMessage.display = "none") := by
  have m1 := hideIfErrorMessage_of_class _ hm.1
  have m2 := hideIfErrorMessage_of_class _ hm.2.1
  have m3 := hideIfErrorMessage_of_class _ hm.2.2.1
  have m4 := hideIfErrorMessage_of_class _ hm.2.2.2
  have hne : ("none" : String) ≠ "block" := by decide
  have hfoo1 : trim "foo@bar" ≠ "" := by decide
  have hfoo2 : emailPattern.test "foo@bar" = false := by decide
  refine ⟨?_, ?_, ?_, ?_, ?_⟩
  · intro h2
    by_cases h1 : trim d.form.fullName.value = "" <;>
    by_cases h4 : trim d.form.location.value = "" <;>
    by_cases h5 : d.form.terms.checked = true <;>
    simp [submitHandler, finish, checkTerms, checkLocation, checkEmail, checkFullName,
      resetMessages, showError, h1, h2, h4, h5, m2]
  · intro h2 h3
    by_cases h1 : trim d.form.fullName.value = "" <;>
    by_cases h4 : trim d.form.location.value = "" <;>
    by_cases h5 : d.form.terms.checked = true <;>
    simp [submitHandler, finish, checkTerms, checkLocation, checkEmail, checkFullName,
      resetMessages, showError, h1, h2, h3, h4, h5, m2]
  · intro h2 h3
    constructor
    · by_cases h1 : trim d.form.fullName.value = "" <;>
      by_cases h4 : trim d.form.location.value = "" <;>
      by_cases h5 : d.form.terms.checked = true <;>
      simp [submitHandler, finish, checkTerms, checkLocation, checkEmail, checkFullName,
        resetMessages, showError, h1, h2, h3, h4, h5, m2]
    · intro r hr
      simp [checkEmail, hr, h2, h3]
  · exact emailPattern_fullMatch_iff _
  · intro e h1 h4 h5
    simp only [fullNameOk, locationOk, termsOk] at h1 h4 h5
    simp [submitHandler, finish, checkTerms, checkLocation, checkEmail, checkFullName,
      resetMessages, showError, e, h1, h4, h5, m1, m2, m3, m4, hfoo1, hfoo2]

/-! ## The gallery lightbox -/

theorem updateLightboxImage_inRange (items : List Img) (s : Lightbox)
    (h0 : 0 ≤ s.currentIndex) (h1 : s.currentIndex < items.length) :
    ∃ img, items[s.currentIndex.toNat]? = some img ∧
      updateLightboxImage items s =
        { state := { s with imageSrc := img.src, caption := img.alt }, threw := false } := by
  have hlt : s.currentIndex.toNat < items.length := by omega
  refine ⟨items[s.currentIndex.toNat], List.getElem?_eq_getElem hlt, ?_⟩
  simp [updateLightboxImage, itemAt, h0, List.getElem?_eq_getElem hlt]

theorem nextImage_index (items : List Img) (s : Lightbox) :
    (nextImage items s).state.currentIndex =
      if s.currentIndex < (items.length : Int) - 1 then s.currentIndex + 1 else 0 := by
  unfold nextImage updateLightboxImage
  split <;> rfl

theorem prevImage_index (items : List Img) (s : Lightbox) :
    (prevImage items s).state.currentIndex =
      if s.currentIndex > 0 then s.currentIndex - 1 else (items.length : Int) - 1 := by
  unfold prevImage updateLightboxImage
  split <;> rfl

theorem nextImage_inRange (items : List Img) (s : Lightbox)
    (h0 : 0 ≤ s.currentIndex) (h1 : s.currentIndex < items.length) :
    0 ≤ (nextImage items s).state.currentIndex ∧
      (nextImage items s).state.currentIndex < items.length := by
  rw [nextImage_index]
  split_ifs <;> omega

theorem prevImage_inRange (items : List Img) (s : Lightbox)
    (h0 : 0 ≤ s.currentIndex) (h1 : s.currentIndex < items.length) :
    0 ≤ (prevImage items s).state.currentIndex ∧
      (prevImage items s).state.currentIndex < items.length := by
  rw [prevImage_index]
  split_ifs <;> omega

theorem nextImage_shows (items : List Img) (s : Lightbox)
    (h0 : 0 ≤ s.currentIndex) (h1 : s.currentIndex < items.length) :
    (nextImage items s).threw = false ∧ (nextImage items s).state.display = s.display ∧
      ∃ img, items[(nextImage items s).state.currentIndex.toNat]? = some img ∧
        (nextImage items s).state.imageSrc = img.src ∧
        (nextImage items s).state.caption = img.alt := by
  have hr := nextImage_inRange items s h0 h1
  rw [nextImage_index] at hr
  obtain ⟨img, hi, hu⟩ := updateLightboxImage_inRange items
    { s with currentIndex :=
        if s.currentIndex < (items.length : Int) - 1 then s.currentIndex + 1 else 0 } hr.1 hr.2
  have he : nextImage items s = _ := hu
  rw [he]
  exact ⟨rfl, rfl, img, hi, rfl, rfl⟩

theorem prevImage_shows (items : List Img) (s : Lightbox)
    (h0 : 0 ≤ s.currentIndex) (h1 : s.currentIndex < items.length) :
    (prevImage items s).threw = false ∧ (prevImage items s).state.display = s.display ∧
      ∃ img, items[(prevImage items s).state.currentIndex.toNat]? = some img ∧
        (prevImage items s).state.imageSrc = img.src ∧
        (prevImage items s).state.caption = img.alt := by
  have hr := prevImage_inRange items s h0 h1
  rw [prevImage_index] at hr
  obtain ⟨img, hi, hu⟩ := updateLightboxImage_inRange items
    { s with currentIndex :=
        if s.currentIndex > 0 then s.currentIndex - 1 else (items.length : Int) - 1 } hr.1 hr.2
  have he : prevImage items s = _ := hu
  rw [he]
  exact ⟨rfl, rfl, img, hi, rfl, rfl⟩

theorem nextIndex_eq_mod (i n : Int) (h0 : 0 ≤ i) (h1 : i < n) :
    (if i < n - 1 then i + 1 else 0) = (i + 1) % n := by
  split_ifs with h
  · rw [Int.emod_eq_of_lt (by omega) (by omega)]
  · have : i + 1 = n := by omega
    rw [this, Int.emod_self]

theorem prevIndex_eq_mod (i n : Int) (h0 : 0 ≤ i) (h1 : i < n) :
    (if i > 0 then i - 1 else n - 1) = (i - 1 + n) % n := by
  split_ifs with h
  · rw [Int.add_emod_self, Int.emod_eq_of_lt (by omega) (by omega)]
  · have : i - 1 + n = n - 1 := by omega
    rw [this, Int.emod_eq_of_lt (by omega) (by omega)]

/-- Claim C5.  In a gallery of `n` items with the current index `i` in range
(`0 ≤ i < n`, so the gallery is not empty), `nextImage` completes and sets the
index to `(i + 1) mod n`, `prevImage` completes and sets it to
`(i - 1 + n) mod n`; after either the overlay shows the `src` and `alt` of the
item at the new index and its `display` is unchanged.  With one item both
leave the index at `0` and show the same item again. -/
theorem nextImage_prevImage_wrap (items : List Img) (s : Lightbox)
    (h0 : 0 ≤ s.currentIndex) (h1 : s.currentIndex < items.length) :
    ((nextImage items s).threw = false ∧
      (nextImage items s).state.currentIndex = (s.currentIndex + 1) % (items.length : Int) ∧
      (nextImage items s).state.display = s.display ∧
      ∃ img, items[((s.currentIndex + 1) % (items.length : Int)).toNat]? = some img ∧
        (nextImage items s).state.imageSrc = img.src ∧
        (nextImage items s).state.caption = img.alt) ∧
    ((prevImage items s).threw = false ∧
      (prevImage items s).state.currentIndex =
        (s.currentIndex - 1 + (items.length : Int)) % (items.length : Int) ∧
      (prevImage items s).state.display = s.display ∧
      ∃ img, items[((s.currentIndex - 1 + (items.length : Int)) %
          (items.length : Int)).toNat]? = some img ∧
        (prevImage items s).state.imageSrc = img.src ∧
        (prevImage items s).state.caption = img.alt) ∧
    (items.length = 1 →
      (nextImage items s).state.currentIndex = 0 ∧
      (prevImage items s).state.currentIndex = 0 ∧
      ∃ img, items = [img] ∧
        (nextImage items s).state.imageSrc = img.src ∧
        (nextImage items s).state.caption = img.alt ∧
        (prevImage items s).state.imageSrc = img.src ∧
        (prevImage items s).state.caption = img.alt) := by
  have hn := nextImage_shows items s h0 h1
  have hp := prevImage_shows items s h0 h1
  have hni : (nextImage items s).state.currentIndex =
      (s.currentIndex + 1) % (items.length : Int) := by
    rw [nextImage_index, nextIndex_eq_mod _ _ h0 h1]
  have hpi : (prevImage items s).state.currentIndex =
      (s.currentIndex - 1 + (items.length : Int)) % (items.length : Int) := by
    rw [prevImage_index, prevIndex_eq_mod _ _ h0 h1]
  refine ⟨⟨hn.1, hni, hn.2.1, ?_⟩, ⟨hp.1, hpi, hp.2.1, ?_⟩, ?_⟩
  · rw [← hni]; exact hn.2.2
  · rw [← hpi]; exact hp.2.2
  · intro hlen
    have hn0 : (nextImage items s).state.currentIndex = 0 := by
      rw [nextImage_index]; split_ifs <;> omega
    have hp0 : (prevImage items s).state.currentIndex = 0 := by
      rw [prevImage_index]; split_ifs <;> omega
    refine ⟨hn0, hp0, ?_⟩
    obtain ⟨a, ha⟩ := List.length_eq_one.mp hlen
    obtain ⟨x, hx, hx1, hx2⟩ := hn.2.2
    obtain ⟨y, hy, hy1, hy2⟩ := hp.2.2
    rw [hn0] at hx
    rw [hp0] at hy
    subst ha
    simp only [Int.toNat_zero, List.getElem?_cons_zero, Option.some.injEq] at hx hy
    subst hx hy
    exact ⟨_, rfl, hx1, hx2, hy1, hy2⟩

/-- Witness for C5 on the sample gallery: from the last index `nextImage`
wraps to `0`, and from index `0` `prevImage` wraps to the last index. -/
theorem nextImage_prevImage_wrap_witness :
    (nextImage sampleGallery sampleLightboxLast).state.currentIndex = 0 ∧
    (nextImage sampleGallery sampleLightboxLast).state.imageSrc = "img/debate1.jpg" ∧
    (prevImage sampleGallery sampleLightbox).state.currentIndex = 2 :=
  ⟨(nextImage_prevImage_wrap sampleGallery sampleLightboxLast (by decide) (by decide)).1.2.1,
    by decide,
    (nextImage_prevImage_wrap sampleGallery sampleLightbox (by decide) (by decide)).2.1.2.1⟩

/-- Claim C8.  With the current index in range, `nextImage` followed by
`prevImage` and `prevImage` followed by `nextImage` both complete and leave
the current index where it was. -/
theorem nextImage_prevImage_inverse (items : List Img) (s : Lightbox)
    (h0 : 0 ≤ s.currentIndex) (h1 : s.currentIndex < items.length) :
    ((nextImage items s).threw = false ∧
      (prevImage items (nextImage items s).state).threw = false ∧
      (prevImage items (nextImage items s).state).state.currentIndex = s.currentIndex) ∧
    ((prevImage items s).threw = false ∧
      (nextImage items (prevImage items s).state).threw = false ∧
      (nextImage items (prevImage items s).state).state.currentIndex = s.currentIndex) := by
  have hn := nextImage_inRange items s h0 h1
  have hp := prevImage_inRange items s h0 h1
  refine ⟨⟨(nextImage_shows items s h0 h1).1,
      (prevImage_shows items _ hn.1 hn.2).1, ?_⟩,
    ⟨(prevImage_shows items s h0 h1).1, (nextImage_shows items _ hp.1 hp.2).1, ?_⟩⟩
  · rw [prevImage_index, nextImage_index]
    split_ifs <;> omega
  · rw [nextImage_index, prevImage_index]
    split_ifs <;> omega

/-- Witness for C8 on the sample gallery, from the last index. -/
theorem nextImage_prevImage_inverse_witness :
    (prevImage sampleGallery (nextImage sampleGallery sampleLightboxLast).state).state.currentIndex
        = 2 ∧
    (nextImage sampleGallery (prevImage sampleGallery sampleLightboxLast).state).state.currentIndex
        = 2 :=
  ⟨(nextImage_prevImage_inverse sampleGallery sampleLightboxLast
      (by decide) (by decide)).1.2.2,
    (nextImage_prevImage_inverse sampleGallery sampleLightboxLast
      (by decide) (by decide)).2.2.2⟩

theorem nextImageTimes_spec (items : List Img) (k : Nat) (s : Lightbox)
    (h0 : 0 ≤ s.currentIndex) (h1 : s.currentIndex < items.length)
    (hk : k ≤ items.length) :
    (nextImageTimes items k s).threw = false ∧
    (nextImageTimes items k s).state.display = s.display ∧
    (nextImageTimes items k s).state.currentIndex =
      (if s.currentIndex + k < items.length then s.currentIndex + k
        else s.currentIndex + k - items.length) ∧
    (0 < k →
      ∃ img, items[(nextImageTimes items k s).state.currentIndex.toNat]? = some img ∧
        (nextImageTimes items k s).state.imageSrc = img.src ∧
        (nextImageTimes items k s).state.caption = img.alt) := by
  induction k generalizing s with
  | zero =>
    refine ⟨rfl, rfl, ?_, fun h => absurd h (by decide)⟩
    simp only [nextImageTimes, Nat.cast_zero, add_zero]
    rw [if_pos h1]
  | succ k ih =>
    have hr := nextImage_inRange items s h0 h1
    have hs := nextImage_shows items s h0 h1
    have hi := nextImage_index items s
    obtain ⟨t1, t2, t3, t4⟩ := ih (nextImage items s).state hr.1 hr.2 (by omega)
    simp only [nextImageTimes]
    refine ⟨by simp [hs.1, t1], by rw [t2, hs.2.1], ?_, ?_⟩
    · rw [t3, hi]
      push_cast
      split_ifs <;> omega
    · intro _
      rcases Nat.eq_zero_or_pos k with hz | hpos
      · subst hz
        exact hs.2.2
      · exact t4 hpos

/-- Claim C9.  In a gallery of `n` items with the current index `i` in range,
`n` consecutive `nextImage` calls all complete, bring the current index back
to `i`, leave the overlay showing the `src` and `alt` of the item at `i`, and
do not change its `display`. -/
theorem nextImage_full_cycle (items : List Img) (s : Lightbox)
    (h0 : 0 ≤ s.currentIndex) (h1 : s.currentIndex < items.length) :
    (nextImageTimes items items.length s).threw = false ∧
    (nextImageTimes items items.length s).state.currentIndex = s.currentIndex ∧
    (nextImageTimes items items.length s).state.display = s.display ∧
    ∃ img, items[s.currentIndex.toNat]? = some img ∧
      (nextImageTimes items items.length s).state.imageSrc = img.src ∧
      (nextImageTimes items items.length s).state.caption = img.alt := by
  obtain ⟨t1, t2, t3, t4⟩ := nextImageTimes_spec items items.length s h0 h1 (le_refl _)
  have hidx : (nextImageTimes items items.length s).state.currentIndex = s.currentIndex := by
    rw [t3]
    split_ifs <;> omega
  have hpos : 0 < items.length := by omega
  refine ⟨t1, hidx, t2, ?_⟩
  obtain ⟨img, hi, hsrc, halt⟩ := t4 hpos
  rw [hidx] at hi
  exact ⟨img, hi, hsrc, halt⟩

/-- Witness for C9 on the sample gallery: three calls from the last index. -/
theorem nextImage_full_cycle_witness :
    (nextImageTimes sampleGallery 3 sampleLightboxLast).state.currentIndex = 2 ∧
    (nextImageTimes sampleGallery 3 sampleLightboxLast).threw = false :=
  ⟨(nextImage_full_cycle sampleGallery sampleLightboxLast (by decide) (by decide)).2.1,
    (nextImage_full_cycle sampleGallery sampleLightboxLast (by decide) (by decide)).1⟩

theorem indexOf_of_mem (items : List Img) (a : Img) (h : a ∈ items) :
    ∃ i : Nat, i < items.length ∧ indexOf items a = (i : Int) ∧ items[i]? = some a := by
  induction items with
  | nil => simp at h
  | cons x xs ih =>
    by_cases hx : x = a
    · exact ⟨0, by simp, by simp [indexOf, hx], by simp [hx]⟩
    · have hmem : a ∈ xs := by
        rcases List.mem_cons.mp h with h | h
        · exact absurd h.symm hx
        · exact h
      obtain ⟨i, hi, he, hg⟩ := ih hmem
      refine ⟨i + 1, by simp [hi], ?_, by simpa using hg⟩
      have hne : indexOf xs a ≠ -1 := by omega
      simp [indexOf, hx, hne, he]

theorem indexOf_of_not_mem (items : List Img) (a : Img) (h : a ∉ items) :
    indexOf items a = -1 := by
  induction items with
  | nil => rfl
  | cons x xs ih =>
    have hx : x ≠ a := fun e => h (e ▸ List.mem_cons_self x xs)
    have hxs : a ∉ xs := fun e => h (List.mem_cons_of_mem x e)
    simp [indexOf, hx, ih hxs]

/-- Claim C6, amended.  For every click on an `IMG` element in the gallery
grid the listener shows the `src` and `alt` of the clicked image in the
overlay and sets its `display` to `flex`; when the clicked image is one of
the gallery items, the current index becomes a position `i` with
`0 ≤ i < n` whose item is the clicked image. -/
theorem galleryClick_opens (items : List Img) (target : Img) (s : Lightbox)
    (ht : target.tagName = "IMG") :
    (galleryClick items target s).imageSrc = target.src ∧
    (galleryClick items target s).caption = target.alt ∧
    (galleryClick items target s).display = "flex" ∧
    (target ∈ items →
      ∃ i : Nat, i < items.length ∧ (galleryClick items target s).currentIndex = (i : Int) ∧
        items[i]? = some target) := by
  refine ⟨by simp [galleryClick, ht, openLightbox], by simp [galleryClick, ht, openLightbox],
    by simp [galleryClick, ht, openLightbox], ?_⟩
  intro hmem
  obtain ⟨i, hi, he, hg⟩ := indexOf_of_mem items target hmem
  exact ⟨i, hi, by simp [galleryClick, ht, openLightbox, he], hg⟩

/-- Witness for C6: a click on the second image of the sample gallery. -/
theorem galleryClick_opens_witness :
    (galleryClick sampleGallery
      { node := 2, tagName := "IMG", src := "img/debate2.jpg", alt := "Workshop" }
      sampleLightbox).display = "flex" :=
  (galleryClick_opens sampleGallery
    { node := 2, tagName := "IMG", src := "img/debate2.jpg", alt := "Workshop" }
    sampleLightbox rfl).2.2.1

/-- Counterexample to C6 as stated: a click on an `IMG` element of the grid
that is not a gallery item sets the current index to `-1`, which is the
position of no item. -/
theorem galleryClick_stray_index :
    sampleStray.tagName = "IMG" ∧
    (galleryClick sampleGallery sampleStray sampleLightbox).currentIndex = -1 ∧
    ¬ ∃ i : Nat, i < sampleGallery.length ∧
      (galleryClick sampleGallery sampleStray sampleLightbox).currentIndex = (i : Int) ∧
      sampleGallery[i]? = some sampleStray := by
  refine ⟨rfl, by decide, ?_⟩
  rintro ⟨i, _, hi, _⟩
  have h : (galleryClick sampleGallery sampleStray sampleLightbox).currentIndex = -1 := by
    decide
  omega

/-! ## Witnesses for the submit listener -/

theorem errorMarkup_sampleBlankDom : ErrorMarkup sampleBlankDom := by
  unfold ErrorMarkup
  decide

theorem errorMarkup_sampleFooDom : ErrorMarkup sampleFooDom := by
  unfold ErrorMarkup
  decide

/-- Witness for C2: the blank form, with every error left visible by an
earlier attempt, ends with exactly the four errors shown. -/
theorem submitHandler_errors_per_field_witness :
    ErrorMarkup sampleBlankDom ∧
    (submitHandler sampleBlankDom).fullNameError.display = "block" ∧
    (submitHandler sampleBlankDom).emailError.display = "block" ∧
    (submitHandler sampleBlankDom).locationError.display = "block" ∧
    (submitHandler sampleBlankDom).termsError.display = "block" ∧
    (submitHandler sampleBlankDom).formMessage.display = "none" :=
  ⟨errorMarkup_sampleBlankDom,
    (submitHandler_errors_per_field sampleBlankDom errorMarkup_sampleBlankDom).2.2.2.2
      rfl rfl rfl rfl⟩

/-- Witness for C4: the form with email `foo@bar` and the other fields valid. -/
theorem submitHandler_email_check_witness :
    ErrorMarkup sampleFooDom ∧
    (submitHandler sampleFooDom).emailError.display = "block" ∧
    (submitHandler sampleFooDom).emailError.textContent =
      "Please enter a valid email address." ∧
    (submitHandler sampleFooDom).fullNameError.display = "none" ∧
    (submitHandler sampleFooDom).locationError.display = "none" ∧
    (submitHandler sampleFooDom).termsError.display = "none" ∧
    (submitHandler sampleFooDom).formMessage.display = "none" :=
  ⟨errorMarkup_sampleFooDom,
    (submitHandler_email_check sampleFooDom errorMarkup_sampleFooDom).2.2.2.2 rfl
      (by unfold fullNameOk; decide) (by unfold locationOk; decide)
      (by unfold termsOk; decide)⟩

/-! ## The events list -/

theorem laterThan_iff (t : Option Int) (now : Int) :
    laterThan t now = true ↔ ∃ x : Int, t = some x ∧ now < x := by
  cases t with
  | none => simp [laterThan]
  | some x => simp [laterThan]

theorem perm_insertSorted (cmp : Event → Event → Option Int) (a : Event) (l : List Event) :
    (insertSorted cmp a l).Perm (a :: l) := by
  induction l with
  | nil => exact List.Perm.refl _
  | cons b l ih =>
    unfold insertSorted
    split_ifs
    · exact List.Perm.refl _
    · exact (List.Perm.cons b ih).trans (List.Perm.swap a b l)

theorem perm_arraySort (cmp : Event → Event → Option Int) (l : List Event) :
    (arraySort cmp l).Perm l := by
  induction l with
  | nil => exact List.Perm.refl _
  | cons a l ih =>
    unfold arraySort
    exact (perm_insertSorted cmp a _).trans (List.Perm.cons a ih)

theorem dateAscending_trans (parse : String → Option Int) (a b c : Event)
    (hab : DateAscending parse a b) (hbc : DateAscending parse b c) :
    DateAscending parse a c := by
  obtain ⟨x, y, hx, hy, hxy⟩ := hab
  obtain ⟨y2, z, hy2, hz, hyz⟩ := hbc
  rw [hy] at hy2
  cases hy2
  exact ⟨x, z, hx, hz, le_trans hxy hyz⟩

theorem pairwise_insertSorted (parse : String → Option Int) (a : Event) (l : List Event)
    (ha : ∃ t, parse a.date = some t) (hl : ∀ e ∈ l, ∃ t, parse e.date = some t)
    (hs : l.Pairwise (DateAscending parse)) :
    (insertSorted (compareDates parse) a l).Pairwise (DateAscending parse) := by
  induction l with
  | nil => simp [insertSorted]
  | cons b l ih =>
    obtain ⟨x, hx⟩ := ha
    obtain ⟨y, hy⟩ := hl b (List.mem_cons_self b l)
    rw [List.pairwise_cons] at hs
    unfold insertSorted
    by_cases hc : notAfter (compareDates parse a b) = true
    · rw [if_pos hc]
      have hab : DateAscending parse a b := by
        simp only [compareDates, hx, hy, notAfter, decide_eq_true_eq] at hc
        exact ⟨x, y, hx, hy, by omega⟩
      refine List.pairwise_cons.mpr ⟨?_, List.pairwise_cons.mpr hs⟩
      intro c hcm
      rcases List.mem_cons.mp hcm with rfl | hcm
      · exact hab
      · exact dateAscending_trans parse a b c hab (hs.1 c hcm)
    · rw [if_neg hc]
      have hba : DateAscending parse b a := by
        simp only [compareDates, hx, hy, notAfter, decide_eq_true_eq] at hc
        exact ⟨y, x, hy, hx, by omega⟩
      refine List.pairwise_cons.mpr ⟨?_, ?_⟩
      · intro c hcm
        rcases List.mem_cons.mp ((perm_insertSorted _ a l).mem_iff.mp hcm) with rfl | hcm
        · exact hba
        · exact hs.1 c hcm
      · exact ih (fun e he => hl e (List.mem_cons_of_mem b he)) hs.2

theorem pairwise_arraySort (parse : String → Option Int) (l : List Event)
    (hl : ∀ e ∈ l, ∃ t, parse e.date = some t) :
    (arraySort (compareDates parse) l).Pairwise (DateAscending parse) := by
  induction l with
  | nil => simp [arraySort]
  | cons a l ih =>
    unfold arraySort
    have hl2 : ∀ e ∈ l, ∃ t, parse e.date = some t :=
      fun e he => hl e (List.mem_cons_of_mem a he)
    refine pairwise_insertSorted parse a _ (hl a (List.mem_cons_self a l)) ?_ (ih hl2)
    intro e he
    exact hl2 e ((perm_arraySort _ l).mem_iff.mp he)

theorem foldl_appendItem (l : List Event) (p : Page) :
    l.foldl (fun q e => appendItem q (eventRow e)) p =
      { p with eventList := p.eventList.map (fun rows => rows ++ l.map eventRow) } := by
  induction l generalizing p with
  | nil =>
    cases p with
    | mk el reg k => cases el <;> simp
  | cons a l ih =>
    rw [List.foldl_cons, ih]
    cases p with
    | mk el reg k => cases el <;> simp [appendItem]

/-- The page `populateUpcomingEvents` leaves when `#event-list` exists: the
list holds the placeholder row or the rows of the filtered and sorted events,
and a listener is added when there is at least one row and the form exists. -/
theorem populateUpcomingEvents_eq (parse : String → Option Int) (events : List Event)
    (now : Int) (prev : List ListItem) (reg : Option FormDom) (k : Nat) :
    populateUpcomingEvents parse events now
        { eventList := some prev, registration := reg, submitListeners := k } =
      if arraySort (compareDates parse)
          (events.filter (fun e => laterThan (parse e.date) now)) = [] then
        { eventList := some [ListItem.noEvent], registration := reg, submitListeners := k }
      else
        { eventList := some ((arraySort (compareDates parse)
            (events.filter (fun e => laterThan (parse e.date) now))).map eventRow)
          registration := reg
          submitListeners := if reg.isSome then k + 1 else k } := by
  simp only [populateUpcomingEvents, foldl_appendItem, List.length_eq_zero]
  by_cases h : arraySort (compareDates parse)
      (events.filter (fun e => laterThan (parse e.date) now)) = []
  · simp [h, appendItem]
  · cases reg <;> simp [h]

theorem parseDate_oct25 : parseDate "Oct 25, 2025" = some 1761350400000 := by decide

theorem parseDate_nov10 : parseDate "Nov 10, 2025" = some 1762732800000 := by decide

theorem msOfDate_nov1 : msOfDate 2025 11 1 = 1761955200000 := by decide

theorem msOfDate_nov10 : msOfDate 2025 11 10 = 1762732800000 := by decide

/-- Claim C7.  With `#event-list` present, whatever it held before,
`populateUpcomingEvents` leaves in it one row per event whose date parses to
a time strictly later than `now`, in ascending date order, each row carrying
the date, title and location of its event, or the single placeholder row when
there is no such event.  For the events dated "Oct 25, 2025" and
"Nov 10, 2025" and `now` at 1 November 2025 the list is the one row of
"Nov 10, 2025"; with `now` at or after 10 November 2025 it is the placeholder
row. -/
theorem populateUpcomingEvents_renders (parse : String → Option Int) (events : List Event)
    (now : Int) (prev : List ListItem) (reg : Option FormDom) (k : Nat) :
    (∃ rows : List Event,
      rows.Perm (events.filter (fun e => laterThan (parse e.date) now)) ∧
      rows.Pairwise (DateAscending parse) ∧
      (populateUpcomingEvents parse events now
          { eventList := some prev, registration := reg, submitListeners := k }).eventList =
        some (if rows = [] then [ListItem.noEvent]
          else rows.map (fun e => ListItem.event e.date e.title e.location))) ∧
    (∀ e : Event,
      laterThan (parse e.date) now = true ↔ ∃ t : Int, parse e.date = some t ∧ now < t) ∧
    (∀ t1 l1 t2 l2 : String,
      (populateUpcomingEvents parseDate
          [ { date := "Oct 25, 2025", title := t1, location := l1 },
            { date := "Nov 10, 2025", title := t2, location := l2 } ]
          (msOfDate 2025 11 1)
          { eventList := some prev, registration := reg, submitListeners := k }).eventList =
        some [ListItem.event "Nov 10, 2025" t2 l2]) ∧
    (∀ (t1 l1 t2 l2 : String) (later : Int), msOfDate 2025 11 10 ≤ later →
      (populateUpcomingEvents parseDate
          [ { date := "Oct 25, 2025", title := t1, location := l1 },
            { date := "Nov 10, 2025", title := t2, location := l2 } ]
          later
          { eventList := some prev, registration := reg, submitListeners := k }).eventList =
        some [ListItem.noEvent]) := by
  refine ⟨?_, fun e => laterThan_iff _ _, ?_, ?_⟩
  · refine ⟨arraySort (compareDates parse)
        (events.filter (fun e => laterThan (parse e.date) now)), perm_arraySort _ _, ?_, ?_⟩
    · apply pairwise_arraySort
      intro e he
      obtain ⟨t, ht, _⟩ := (laterThan_iff _ _).mp (List.mem_filter.mp he).2
      exact ⟨t, ht⟩
    · rw [populateUpcomingEvents_eq]
      split_ifs <;> rfl
  · intro t1 l1 t2 l2
    rw [populateUpcomingEvents_eq]
    simp [parseDate_oct25, parseDate_nov10, msOfDate_nov1, laterThan, arraySort,
      insertSorted, eventRow]
  · intro t1 l1 t2 l2 later hl
    rw [msOfDate_nov10] at hl
    rw [populateUpcomingEvents_eq]
    have h1 : ¬ later < 1761350400000 := by omega
    have h2 : ¬ later < 1762732800000 := by omega
    simp [parseDate_oct25, parseDate_nov10, laterThan, arraySort, h1, h2]

/-- Claim C3, the code at the failing inputs.  `populateUpcomingEvents`
attaches no submit listener when `#event-list` is absent, and none when no
event is strictly later than `now`; on the sample page with the shipped table
and `now` at 4 November 2026 a submit event then runs no listener: the page
is as rendered, nothing is validated and the native submission is not
prevented. -/
theorem populateUpcomingEvents_skips_validator :
    (∀ (parse : String → Option Int) (events : List Event) (now : Int)
        (reg : Option FormDom) (k : Nat),
      (populateUpcomingEvents parse events now
        { eventList := none, registration := reg, submitListeners := k }).submitListeners = k) ∧
    (∀ (parse : String → Option Int) (events : List Event) (now : Int)
        (prev : List ListItem) (reg : Option FormDom) (k : Nat),
      events.filter (fun e => laterThan (parse e.date) now) = [] →
      (populateUpcomingEvents parse events now
        { eventList := some prev, registration := reg, submitListeners := k }).submitListeners
          = k) ∧
    (populateUpcomingEvents parseDate upcomingEvents (msOfDate 2026 11 4) samplePage).submitListeners
      = 0 ∧
    dispatchSubmit
        (populateUpcomingEvents parseDate upcomingEvents (msOfDate 2026 11 4) samplePage) =
      ({ eventList := some [ListItem.noEvent], registration := some sampleFormDom,
         submitListeners := 0 }, false) := by
  refine ⟨?_, ?_, ?_, ?_⟩
  · intro parse events now reg k
    rfl
  · intro parse events now prev reg k h
    rw [populateUpcomingEvents_eq, h]
    simp [arraySort]
  · decide
  · decide

/-- Claim C10, the code at the failing input.  A second call of
`populateUpcomingEvents` leaves the same event list as the first, for every
parser, table, time and page, but not the same page: on the sample page with
the shipped table and `now` at 1 November 2025 one call attaches one submit
listener and two calls attach two.  After one call a submit of the valid form
shows the success message; after two calls the second listener runs on the
form the first one has reset, so the success message ends hidden and the full
name error is shown. -/
theorem populateUpcomingEvents_twice :
    (∀ (parse : String → Option Int) (events : List Event) (now : Int) (p : Page),
      (populateUpcomingEvents parse events now
          (populateUpcomingEvents parse events now p)).eventList =
        (populateUpcomingEvents parse events now p).eventList) ∧
    (populateUpcomingEvents parseDate upcomingEvents (msOfDate 2025 11 1)
        samplePage).submitListeners = 1 ∧
    (populateUpcomingEvents parseDate upcomingEvents (msOfDate 2025 11 1)
        (populateUpcomingEvents parseDate upcomingEvents (msOfDate 2025 11 1)
          samplePage)).submitListeners = 2 ∧
    ((dispatchSubmit (populateUpcomingEvents parseDate upcomingEvents (msOfDate 2025 11 1)
        samplePage)).1.registration.map (fun d => d.formMessage.display)) = some "block" ∧
    ((dispatchSubmit (populateUpcomingEvents parseDate upcomingEvents (msOfDate 2025 11 1)
        (populateUpcomingEvents parseDate upcomingEvents (msOfDate 2025 11 1)
          samplePage))).1.registration.map
            (fun d => (d.formMessage.display, d.fullNameError.display))) =
      some ("none", "block") := by
  refine ⟨?_, ?_, ?_, ?_, ?_⟩
  · intro parse events now p
    cases p with
    | mk el reg k =>
      cases el with
      | none => rfl
      | some prev =>
        rw [populateUpcomingEvents_eq]
        by_cases h : arraySort (compareDates parse)
            (events.filter (fun e => laterThan (parse e.date) now)) = []
        · rw [if_pos h, populateUpcomingEvents_eq, if_pos h]
        · rw [if_neg h, populateUpcomingEvents_eq, if_neg h]
  · decide
  · decide
  · decide
  · decide

end DGDA
